import Mathlib

/-!
Shallow embedding of the authentication-and-authorization core of the
`setlist_manager` repository, together with proofs settling the frozen
claims about its specification.

Sources embedded:
- `internal/store/auth_store.go` (`SQLiteAuthStore` and its row types), the
  SQL statements interpreted over in-memory lists of rows;
- `internal/app/auth/service.go` (`AuthService` and the auth `Handler`);
- `internal/app/shared/auth.go` (`shared.AuthService.GetCurrentUser`);
- `internal/app/bands/handler.go` (`InviteMember`, `RemoveMember`) over the
  band-members store of `internal/database/database.go`.

Conventions: Go `time.Time` instants become `Int` (seconds); the Go
comparison `time.Now().After(t)` is `now > t`.  Nondeterministic inputs of
the Go code — `time.Now()`, `crypto/rand` tokens, generated UUIDs — become
explicit parameters of the corresponding Lean functions.  SHA-256
(`hashToken` in `service.go`) is modelled as a deterministic injective
tagging function: the claims need determinism and collision-freeness (the
spec treats 256-bit collisions as negligible), never one-wayness.
-/

namespace SetlistManager

/-- Instants of Go `time.Time`, in seconds. `time.Now().After(t)` is `now > t`. -/
abbrev Time := Int

/-- Row type `User` of `internal/store/auth_store.go` (table `users`). -/
structure User where
  id : String
  email : String
  createdAt : Time
  lastLogin : Option Time
  isActive : Bool
deriving Repr, DecidableEq

/-- Row type `MagicLink` of `internal/store/auth_store.go` (table `magic_links`). -/
structure MagicLink where
  id : String
  userId : String
  tokenHash : String
  expiresAt : Time
  usedAt : Option Time
  createdAt : Time
deriving Repr, DecidableEq

/-- Row type `Session` of `internal/store/auth_store.go` (table `sessions`).
The `sessionToken` field is the `session_token` column. -/
structure Session where
  id : String
  userId : String
  sessionToken : String
  expiresAt : Time
  createdAt : Time
deriving Repr, DecidableEq

/-- The three tables read and written by `SQLiteAuthStore`, as lists of rows
in insertion order (SQLite `QueryRow` without `ORDER BY` is modelled as the
first matching row in insertion order). -/
structure AuthDB where
  users : List User
  magicLinks : List MagicLink
  sessions : List Session
deriving Repr, DecidableEq

/-- `hashToken` of `internal/app/auth/service.go`: SHA-256 hex digest,
modelled as an injective deterministic tag (collision-freeness is the
spec's stated assumption for 256-bit digests; one-wayness is not needed
by any claim). -/
def hashToken (token : String) : String := "sha256:" ++ token

namespace SQLiteAuthStore

/-- `SQLiteAuthStore.CreateUser`: `INSERT INTO users (id, email)`; the fresh
UUID and the insertion instant are explicit parameters. -/
def CreateUser (db : AuthDB) (email : String) (userID : String) (now : Time) :
    User × AuthDB :=
  let user : User :=
    { id := userID, email := email, createdAt := now, lastLogin := none, isActive := true }
  (user, { db with users := db.users ++ [user] })

/-- `SQLiteAuthStore.GetUserByEmail`: `SELECT ... FROM users WHERE email = ?`. -/
def GetUserByEmail (db : AuthDB) (email : String) : Option User :=
  db.users.find? (fun u => u.email == email)

/-- `SQLiteAuthStore.GetUserByID`: `SELECT ... FROM users WHERE id = ?`. -/
def GetUserByID (db : AuthDB) (userID : String) : Option User :=
  db.users.find? (fun u => u.id == userID)

/-- `SQLiteAuthStore.UpdateUserLastLogin`: `UPDATE users SET last_login = ? WHERE id = ?`. -/
def UpdateUserLastLogin (db : AuthDB) (userID : String) (now : Time) : AuthDB :=
  { db with
    users := db.users.map (fun u =>
      if u.id == userID then { u with lastLogin := some now } else u) }

/-- `SQLiteAuthStore.CreateMagicLink`: `INSERT INTO magic_links (id, user_id,
token_hash, expires_at)`; `used_at` starts NULL. -/
def CreateMagicLink (db : AuthDB) (userID tokenHash : String) (expiresAt : Time)
    (magicLinkID : String) (now : Time) : MagicLink × AuthDB :=
  let ml : MagicLink :=
    { id := magicLinkID, userId := userID, tokenHash := tokenHash,
      expiresAt := expiresAt, usedAt := none, createdAt := now }
  (ml, { db with magicLinks := db.magicLinks ++ [ml] })

/-- `SQLiteAuthStore.GetMagicLinkByTokenHash`:
`SELECT ... FROM magic_links WHERE token_hash = ?`. -/
def GetMagicLinkByTokenHash (db : AuthDB) (tokenHash : String) : Option MagicLink :=
  db.magicLinks.find? (fun ml => ml.tokenHash == tokenHash)

/-- `SQLiteAuthStore.MarkMagicLinkAsUsed`:
`UPDATE magic_links SET used_at = ? WHERE id = ?` — the update is
unconditional: it has no `used_at IS NULL` guard. -/
def MarkMagicLinkAsUsed (db : AuthDB) (magicLinkID : String) (now : Time) : AuthDB :=
  { db with
    magicLinks := db.magicLinks.map (fun ml =>
      if ml.id == magicLinkID then { ml with usedAt := some now } else ml) }

/-- `SQLiteAuthStore.CleanupExpiredMagicLinks`:
`DELETE FROM magic_links WHERE expires_at < ?`. -/
def CleanupExpiredMagicLinks (db : AuthDB) (now : Time) : AuthDB :=
  { db with magicLinks := db.magicLinks.filter (fun ml => !decide (ml.expiresAt < now)) }

/-- `SQLiteAuthStore.CreateSession`: `INSERT INTO sessions (id, user_id,
session_token, expires_at)`; the store writes whatever value the caller
passes in the `session_token` column. -/
def CreateSession (db : AuthDB) (userID sessionToken : String) (expiresAt : Time)
    (sessionID : String) (now : Time) : Session × AuthDB :=
  let s : Session :=
    { id := sessionID, userId := userID, sessionToken := sessionToken,
      expiresAt := expiresAt, createdAt := now }
  (s, { db with sessions := db.sessions ++ [s] })

/-- `SQLiteAuthStore.GetSessionByToken`:
`SELECT ... FROM sessions WHERE session_token = ?`. -/
def GetSessionByToken (db : AuthDB) (sessionToken : String) : Option Session :=
  db.sessions.find? (fun s => s.sessionToken == sessionToken)

/-- `SQLiteAuthStore.DeleteSession`: `DELETE FROM sessions WHERE session_token = ?`. -/
def DeleteSession (db : AuthDB) (sessionToken : String) : AuthDB :=
  { db with sessions := db.sessions.filter (fun s => s.sessionToken != sessionToken) }

/-- `SQLiteAuthStore.CleanupExpiredSessions`:
`DELETE FROM sessions WHERE expires_at < ?`. -/
def CleanupExpiredSessions (db : AuthDB) (now : Time) : AuthDB :=
  { db with sessions := db.sessions.filter (fun s => !decide (s.expiresAt < now)) }

end SQLiteAuthStore

/-- The error results of `AuthService.VerifyMagicLink` in
`internal/app/auth/service.go`, one constructor per distinct `fmt.Errorf`
message on the non-storage paths. -/
inductive VerifyError where
  /-- "invalid or expired token" (no `magic_links` row matches the hash). -/
  | invalidToken
  /-- "token expired" (`time.Now().After(magicLink.ExpiresAt)`). -/
  | expired
  /-- "token already used" (`magicLink.UsedAt != nil`). -/
  | alreadyUsed
  /-- "user not found" (`GetUserByID` returned no row). -/
  | userNotFound
deriving Repr, DecidableEq

/-- The error results of `AuthService.GetUserFromSession` in
`internal/app/auth/service.go`. -/
inductive SessionError where
  /-- "session not found". -/
  | notFound
  /-- "session expired". -/
  | expired
  /-- "user not found". -/
  | userNotFound
deriving Repr, DecidableEq

namespace AuthService

/-- `AuthService.GenerateMagicLink` (`internal/app/auth/service.go`): look the
user up by email, create it when absent, then insert a magic link whose
token hash is `hashToken token` and whose expiry is `now + 15 minutes`;
the raw token is returned.  `token` stands for `generateRandomToken()`,
`freshUserID`/`freshLinkID` for the generated UUIDs. -/
def GenerateMagicLink (db : AuthDB) (email : String)
    (freshUserID freshLinkID token : String) (now : Time) : String × AuthDB :=
  let (user, db1) :=
    match SQLiteAuthStore.GetUserByEmail db email with
    | some u => (u, db)
    | none => SQLiteAuthStore.CreateUser db email freshUserID now
  let tokenHash := hashToken token
  let expiresAt := now + 15 * 60
  let (_, db2) := SQLiteAuthStore.CreateMagicLink db1 user.id tokenHash expiresAt freshLinkID now
  (token, db2)

/-- `AuthService.VerifyMagicLink` (`internal/app/auth/service.go`): hash the
token, look the link up, then check expiry (`time.Now().After`), then check
`UsedAt != nil`, then mark the link used, load the user, and update
last-login (best effort).  Returns the result together with the final
database state — the mark-used write persists even on the
user-not-found path, exactly as in the Go code. -/
def VerifyMagicLink (db : AuthDB) (token : String) (now : Time) :
    Except VerifyError User × AuthDB :=
  let tokenHash := hashToken token
  match SQLiteAuthStore.GetMagicLinkByTokenHash db tokenHash with
  | none => (.error .invalidToken, db)
  | some magicLink =>
    if now > magicLink.expiresAt then (.error .expired, db)
    else if magicLink.usedAt.isSome then (.error .alreadyUsed, db)
    else
      let db1 := SQLiteAuthStore.MarkMagicLinkAsUsed db magicLink.id now
      match SQLiteAuthStore.GetUserByID db1 magicLink.userId with
      | none => (.error .userNotFound, db1)
      | some user =>
        let db2 := SQLiteAuthStore.UpdateUserLastLogin db1 user.id now
        (.ok user, db2)

/-- `AuthService.CreateSession` (`internal/app/auth/service.go`): generate a
raw session token, store `hashToken` of it with expiry `now + 7 days`, and
return the raw token.  `token` stands for `generateRandomToken()`,
`freshSessionID` for the generated UUID. -/
def CreateSession (db : AuthDB) (userID : String) (freshSessionID token : String)
    (now : Time) : String × AuthDB :=
  let sessionTokenHash := hashToken token
  let expiresAt := now + 7 * 24 * 60 * 60
  let (_, db1) :=
    SQLiteAuthStore.CreateSession db userID sessionTokenHash expiresAt freshSessionID now
  (token, db1)

/-- `AuthService.GetUserFromSession` (`internal/app/auth/service.go`): hash
the raw session token, look the session up, check expiry, load the user.
Read-only. -/
def GetUserFromSession (db : AuthDB) (sessionToken : String) (now : Time) :
    Except SessionError User :=
  let sessionTokenHash := hashToken sessionToken
  match SQLiteAuthStore.GetSessionByToken db sessionTokenHash with
  | none => .error .notFound
  | some session =>
    if now > session.expiresAt then .error .expired
    else
      match SQLiteAuthStore.GetUserByID db session.userId with
      | none => .error .userNotFound
      | some user => .ok user

/-- `invalidate_session` of spec §4.4 over `SQLiteAuthStore.DeleteSession`.
Modelled from the spec: `invalidate_session(RawToken)` hashes the raw token
and deletes the Session row by that hash; the store's `DeleteSession`
(which deletes by the stored `session_token` column, i.e. by hash) is in
the source, but no live caller in `src/` performs the hash-then-delete
composition, so the raw-token wrapper follows the spec's words. -/
def InvalidateSession (db : AuthDB) (sessionToken : String) : AuthDB :=
  SQLiteAuthStore.DeleteSession db (hashToken sessionToken)

end AuthService

/-- What `auth.Handler.HandleLogout` (`internal/app/auth/service.go`, wired to
`POST /auth/logout` in `internal/app/application.go` `setupRoutes`) sends
back: it sets the `session_token` cookie to empty with `MaxAge: -1` and
redirects to the login page. -/
structure LogoutResponse where
  cookieCleared : Bool
  redirect : String
deriving Repr, DecidableEq

/-- `auth.Handler.HandleLogout`: the handler body only writes the
cookie-clearing `Set-Cookie` header and the redirect; it performs no
database call, so the state passes through unchanged.  The request's
cookie (if any) is never read. -/
def HandleLogout (db : AuthDB) (_cookie : Option String) : LogoutResponse × AuthDB :=
  (⟨true, "/auth/login"⟩, db)

/-- Result of `shared.AuthService.GetCurrentUser`
(`internal/app/shared/auth.go`): a resolved user, a `nil` return (treated
as unauthenticated by every caller), or a runtime panic. -/
inductive CurrentUserResult where
  | user (u : User)
  | unauthenticated
  /-- The Go code reads `user.ID` without checking `user != nil` after
  `GetUserByID`; when the session's user row is absent, `GetUserByID`
  returns `(nil, nil)` and the field access dereferences a nil pointer. -/
  | panicked
deriving Repr, DecidableEq

/-- `shared.AuthService.GetCurrentUser` (`internal/app/shared/auth.go`):
read the `session_token` cookie, hash it, look the session up, check
expiry, load the user, and build the result from `user.ID`/`user.Email`
with no nil check on `user`. -/
def GetCurrentUser (db : AuthDB) (cookie : Option String) (now : Time) :
    CurrentUserResult :=
  match cookie with
  | none => .unauthenticated
  | some sessionToken =>
    let sessionTokenHash := hashToken sessionToken
    match SQLiteAuthStore.GetSessionByToken db sessionTokenHash with
    | none => .unauthenticated
    | some session =>
      if now > session.expiresAt then .unauthenticated
      else
        match SQLiteAuthStore.GetUserByID db session.userId with
        | none => .panicked
        | some user => .user user

/-- Row type `BandMember` (table `band_members`, read by
`internal/app/bands/handler.go` through its bands store). -/
structure BandMember where
  id : String
  bandId : String
  userId : String
  role : String
  joinedAt : Time
  isActive : Bool
deriving Repr, DecidableEq

/-- The tables the bands handler touches: `users` (read by its
`GetUserByEmail`) and `band_members`. -/
structure BandsDB where
  users : List User
  members : List BandMember
deriving Repr, DecidableEq

namespace SQLiteBandsStore

/-- `GetBandMember`: `SELECT ... FROM band_members WHERE band_id = ? AND
user_id = ? AND is_active = 1`. -/
def GetBandMember (db : BandsDB) (bandID userID : String) : Option BandMember :=
  db.members.find? (fun m => m.bandId == bandID && m.userId == userID && m.isActive)

/-- The bands store's `GetUserByEmail`: `SELECT ... FROM users WHERE email = ?`. -/
def GetUserByEmail (db : BandsDB) (email : String) : Option User :=
  db.users.find? (fun u => u.email == email)

/-- `AddBandMember`: `INSERT INTO band_members (id, band_id, user_id, role)`;
`is_active` defaults to 1. -/
def AddBandMember (db : BandsDB) (bandID userID role : String)
    (memberID : String) (now : Time) : BandMember × BandsDB :=
  let m : BandMember :=
    { id := memberID, bandId := bandID, userId := userID, role := role,
      joinedAt := now, isActive := true }
  (m, { db with members := db.members ++ [m] })

/-- `RemoveBandMember`: `DELETE FROM band_members WHERE band_id = ? AND
user_id = ?` (no `is_active` filter). -/
def RemoveBandMember (db : BandsDB) (bandID userID : String) : BandsDB :=
  { db with
    members := db.members.filter (fun m => !(m.bandId == bandID && m.userId == userID)) }

end SQLiteBandsStore

/-- What the invite/remove handlers of `internal/app/bands/handler.go` render:
an error fragment (`templates.MembersSectionError` with the given message)
or the refreshed members section (`templates.MembersSection`). -/
inductive MembersResult where
  | errorSection (msg : String)
  | membersSection
deriving Repr, DecidableEq

namespace BandsHandler

/-- `bands.Handler.InviteMember` (`internal/app/bands/handler.go`, routed to
`POST /api/bands/invite`).  Parameters: `bandID` is the `id` query value
(`none` for absent/empty), `currentUser` is the result of
`getCurrentUser` (session resolution factored out), `email`/`_name`/`role`
are the form fields, `freshMemberID` the generated row UUID.  The handler
checks only that the caller is an active band member — it never inspects
the caller's `role` field. -/
def InviteMember (db : BandsDB) (bandID : Option String) (currentUser : Option User)
    (email _name role : String) (freshMemberID : String) (now : Time) :
    MembersResult × BandsDB :=
  match bandID with
  | none => (.errorSection "Band ID is required", db)
  | some bid =>
    match currentUser with
    | none => (.errorSection "Unauthorized", db)
    | some user =>
      match SQLiteBandsStore.GetBandMember db bid user.id with
      | none => (.errorSection "Access denied", db)
      | some _member =>
        if email == "" then (.errorSection "Email is required", db)
        else
          match SQLiteBandsStore.GetUserByEmail db email with
          | none =>
            (.errorSection "User with this email does not exist. They must sign up first.", db)
          | some invitedUser =>
            match SQLiteBandsStore.GetBandMember db bid invitedUser.id with
            | some _ => (.errorSection "User is already a member of this band", db)
            | none =>
              let role1 := if role == "" then "member" else role
              if role1 != "member" && role1 != "admin" then (.errorSection "Invalid role", db)
              else
                let (_, db1) :=
                  SQLiteBandsStore.AddBandMember db bid invitedUser.id role1 freshMemberID now
                (.membersSection, db1)

/-- `bands.Handler.RemoveMember` (`internal/app/bands/handler.go`, routed to
`DELETE /api/bands/members/remove`).  `bandID` and `userID` are the `id`
and `user_id` query values.  The handler rejects self-removal and removal
of the `owner`, but never inspects the caller's own `role`. -/
def RemoveMember (db : BandsDB) (bandID userID : Option String)
    (currentUser : Option User) : MembersResult × BandsDB :=
  match bandID with
  | none => (.errorSection "Band ID is required", db)
  | some bid =>
    match userID with
    | none => (.errorSection "User ID is required", db)
    | some uid =>
      match currentUser with
      | none => (.errorSection "Unauthorized", db)
      | some currentUser =>
        match SQLiteBandsStore.GetBandMember db bid currentUser.id with
        | none => (.errorSection "Access denied", db)
        | some _currentMember =>
          if currentUser.id == uid then
            (.errorSection "You cannot remove yourself from the band", db)
          else
            match SQLiteBandsStore.GetBandMember db bid uid with
            | none => (.errorSection "User is not a member of this band", db)
            | some targetMember =>
              if targetMember.role == "owner" then
                (.errorSection "The owner cannot be removed from the band", db)
              else
                (.membersSection, SQLiteBandsStore.RemoveBandMember db bid uid)

end BandsHandler

/-- The state-mutating operations of the authentication core: every
`SQLiteAuthStore` write and every `AuthService` entry point that the live
code can execute (read-only operations change no state and are omitted). -/
inductive AuthOp where
  | createUser (email userID : String) (now : Time)
  | updateUserLastLogin (userID : String) (now : Time)
  | createMagicLink (userID tokenHash : String) (expiresAt : Time) (magicLinkID : String) (now : Time)
  | markMagicLinkAsUsed (magicLinkID : String) (now : Time)
  | cleanupExpiredMagicLinks (now : Time)
  | createSessionRow (userID sessionToken : String) (expiresAt : Time) (sessionID : String) (now : Time)
  | deleteSession (sessionToken : String)
  | cleanupExpiredSessions (now : Time)
  | generateMagicLink (email freshUserID freshLinkID token : String) (now : Time)
  | verifyMagicLink (token : String) (now : Time)
  | createSession (userID freshSessionID token : String) (now : Time)
  | invalidateSession (sessionToken : String)
deriving Repr, DecidableEq

/-- The state transition of each operation. -/
def applyOp (db : AuthDB) : AuthOp → AuthDB
  | .createUser email uid now => (SQLiteAuthStore.CreateUser db email uid now).2
  | .updateUserLastLogin uid now => SQLiteAuthStore.UpdateUserLastLogin db uid now
  | .createMagicLink uid h exp mlId now => (SQLiteAuthStore.CreateMagicLink db uid h exp mlId now).2
  | .markMagicLinkAsUsed mlId now => SQLiteAuthStore.MarkMagicLinkAsUsed db mlId now
  | .cleanupExpiredMagicLinks now => SQLiteAuthStore.CleanupExpiredMagicLinks db now
  | .createSessionRow uid tok exp sid now => (SQLiteAuthStore.CreateSession db uid tok exp sid now).2
  | .deleteSession tok => SQLiteAuthStore.DeleteSession db tok
  | .cleanupExpiredSessions now => SQLiteAuthStore.CleanupExpiredSessions db now
  | .generateMagicLink email uid mlId tok now => (AuthService.GenerateMagicLink db email uid mlId tok now).2
  | .verifyMagicLink tok now => (AuthService.VerifyMagicLink db tok now).2
  | .createSession uid sid tok now => (AuthService.CreateSession db uid sid tok now).2
  | .invalidateSession tok => AuthService.InvalidateSession db tok

/-- Fold a sequence of operations over the state. -/
def applyOps (db : AuthDB) (ops : List AuthOp) : AuthDB := ops.foldl applyOp db

/-- `true` unless the operation can insert a fresh `magic_links` row whose
`token_hash` equals `h`.  The two inserting operations are the raw store
insert and `GenerateMagicLink`; for random 256-bit tokens the condition
holds for every hash already present in the store. -/
def opAvoidsHash (op : AuthOp) (h : String) : Bool :=
  match op with
  | .createMagicLink _ tokenHash _ _ _ => tokenHash != h
  | .generateMagicLink _ _ _ tok _ => hashToken tok != h
  | _ => true

/-- Every `magic_links` row carrying hash `h` has a non-null `used_at`:
the single-use guarantee's persistent form for the token hashing to `h`. -/
def hashConsumed (db : AuthDB) (h : String) : Prop :=
  ∀ ml ∈ db.magicLinks, ml.tokenHash = h → ml.usedAt.isSome

instance (db : AuthDB) (h : String) : Decidable (hashConsumed db h) := by
  unfold hashConsumed; infer_instance

deriving instance DecidableEq for Except

/-- One in-flight `AuthService.VerifyMagicLink` request, at statement
granularity: `start` is about to run the SELECT-by-hash and the two pure
checks; `marking` has passed the checks and is about to run the
`MarkMagicLinkAsUsed` UPDATE and the remainder; `finished` holds the
returned result. -/
inductive VerifyThread where
  | start (token : String)
  | marking (token magicLinkID userId : String)
  | finished (result : Except VerifyError User)
deriving Repr, DecidableEq

/-- One atomic step of an in-flight verification against the shared store.
The first step is the read (`GetMagicLinkByTokenHash`) plus the in-memory
expiry/used checks; the second is the unconditional mark-used UPDATE
followed by the user read and last-login update.  A coarser grouping than
one step per SQL statement only removes interleavings, so any behaviour
exhibited here is a behaviour of the Go code. -/
def stepThread (db : AuthDB) (now : Time) : VerifyThread → VerifyThread × AuthDB
  | .start token =>
    match SQLiteAuthStore.GetMagicLinkByTokenHash db (hashToken token) with
    | none => (.finished (.error .invalidToken), db)
    | some magicLink =>
      if now > magicLink.expiresAt then (.finished (.error .expired), db)
      else if magicLink.usedAt.isSome then (.finished (.error .alreadyUsed), db)
      else (.marking token magicLink.id magicLink.userId, db)
  | .marking _token magicLinkID uid =>
    let db1 := SQLiteAuthStore.MarkMagicLinkAsUsed db magicLinkID now
    match SQLiteAuthStore.GetUserByID db1 uid with
    | none => (.finished (.error .userNotFound), db1)
    | some user => (.finished (.ok user), SQLiteAuthStore.UpdateUserLastLogin db1 user.id now)
  | .finished r => (.finished r, db)

/-- Two concurrent verification requests sharing the credential store. -/
structure RaceState where
  db : AuthDB
  t1 : VerifyThread
  t2 : VerifyThread
deriving Repr, DecidableEq

/-- Scheduler step: `true` advances the first request, `false` the second. -/
def stepRace (now : Time) (s : RaceState) (pick : Bool) : RaceState :=
  if pick then
    let (t1', db') := stepThread s.db now s.t1
    { s with db := db', t1 := t1' }
  else
    let (t2', db') := stepThread s.db now s.t2
    { s with db := db', t2 := t2' }

/-- Run a schedule (a list of scheduler picks) over a race state. -/
def runRace (now : Time) (s : RaceState) (sched : List Bool) : RaceState :=
  sched.foldl (stepRace now) s

/-! Helper lemmas shared by the claim theorems. -/

/-- Appending one element to a list none of whose elements satisfies the
predicate makes `find?` decide on the appended element alone. -/
theorem find?_append_singleton {α} (l : List α) (x : α) (p : α → Bool)
    (h : ∀ y ∈ l, p y = false) :
    (l ++ [x]).find? p = if p x then some x else none := by
  rw [List.find?_append, List.find?_eq_none.mpr (fun a ha hpa => by simp [h a ha] at hpa)]
  cases hx : p x <;> simp [List.find?, hx]

/-- With pairwise-distinct ids (the `users.id` PRIMARY KEY), looking a list
member up by its id finds exactly it. -/
theorem find?_by_id_of_nodup (l : List User) (u : User) (hmem : u ∈ l)
    (hnodup : (l.map User.id).Nodup) : l.find? (fun v => v.id == u.id) = some u := by
  induction l with
  | nil => cases hmem
  | cons a l ih =>
    rw [List.map_cons, List.nodup_cons] at hnodup
    rcases List.mem_cons.mp hmem with rfl | hmem'
    · simp [List.find?]
    · have hne : (a.id == u.id) = false := by
        refine beq_eq_false_iff_ne.mpr fun he => hnodup.1 ?_
        exact he ▸ List.mem_map_of_mem User.id hmem'
      simp only [List.find?, hne]
      exact ih hmem' hnodup.2

/-- Marking a magic link used does not touch the `users` table. -/
theorem getUserByID_mark (db : AuthDB) (magicLinkID : String) (now : Time) (x : String) :
    SQLiteAuthStore.GetUserByID (SQLiteAuthStore.MarkMagicLinkAsUsed db magicLinkID now) x
      = SQLiteAuthStore.GetUserByID db x := rfl

/-- Characterization of the success path of `VerifyMagicLink`: when the link
is found, unexpired and unused, and its user row exists, the call returns
that user and the state with the link marked used and the user's
last-login updated. -/
theorem verify_success_of (db : AuthDB) (t : String) (now : Time) (ml : MagicLink) (u : User)
    (hfind : SQLiteAuthStore.GetMagicLinkByTokenHash db (hashToken t) = some ml)
    (hexp : ¬ now > ml.expiresAt) (hused : ml.usedAt = none)
    (huser : SQLiteAuthStore.GetUserByID db ml.userId = some u) :
    AuthService.VerifyMagicLink db t now =
      (.ok u,
       SQLiteAuthStore.UpdateUserLastLogin
         (SQLiteAuthStore.MarkMagicLinkAsUsed db ml.id now) u.id now) := by
  simp only [AuthService.VerifyMagicLink, hfind, hexp, if_false, hused, Option.isSome_none,
    Bool.false_eq_true, getUserByID_mark, huser]

/-- Claim C1: the claim says invite-member and remove-member fail with
Forbidden for a caller whose role is plain `member` and leave the
membership relation unchanged.  Evaluating the embedded handlers at a
concrete failing input shows the opposite: `alice` is an active member of
band `b1` with stored role `"member"`, yet her invite of `carol` succeeds
and adds a `band_members` row, and her removal of fellow member `dave`
succeeds and deletes his row — the handlers check membership but never the
caller's role. -/
theorem member_can_invite_and_remove :
    SQLiteBandsStore.GetBandMember
        ⟨[⟨"uo", "owner@x", 0, none, true⟩, ⟨"ua", "alice@x", 0, none, true⟩,
          ⟨"uc", "carol@x", 0, none, true⟩, ⟨"ud", "dave@x", 0, none, true⟩],
         [⟨"m0", "b1", "uo", "owner", 0, true⟩, ⟨"m1", "b1", "ua", "member", 0, true⟩,
          ⟨"m2", "b1", "ud", "member", 0, true⟩]⟩ "b1" "ua"
      = some ⟨"m1", "b1", "ua", "member", 0, true⟩ ∧
    BandsHandler.InviteMember
        ⟨[⟨"uo", "owner@x", 0, none, true⟩, ⟨"ua", "alice@x", 0, none, true⟩,
          ⟨"uc", "carol@x", 0, none, true⟩, ⟨"ud", "dave@x", 0, none, true⟩],
         [⟨"m0", "b1", "uo", "owner", 0, true⟩, ⟨"m1", "b1", "ua", "member", 0, true⟩,
          ⟨"m2", "b1", "ud", "member", 0, true⟩]⟩
        (some "b1") (some ⟨"ua", "alice@x", 0, none, true⟩) "carol@x" "Carol" "member" "m3" 5
      = (.membersSection,
         ⟨[⟨"uo", "owner@x", 0, none, true⟩, ⟨"ua", "alice@x", 0, none, true⟩,
           ⟨"uc", "carol@x", 0, none, true⟩, ⟨"ud", "dave@x", 0, none, true⟩],
          [⟨"m0", "b1", "uo", "owner", 0, true⟩, ⟨"m1", "b1", "ua", "member", 0, true⟩,
           ⟨"m2", "b1", "ud", "member", 0, true⟩, ⟨"m3", "b1", "uc", "member", 5, true⟩]⟩) ∧
    BandsHandler.RemoveMember
        ⟨[⟨"uo", "owner@x", 0, none, true⟩, ⟨"ua", "alice@x", 0, none, true⟩,
          ⟨"uc", "carol@x", 0, none, true⟩, ⟨"ud", "dave@x", 0, none, true⟩],
         [⟨"m0", "b1", "uo", "owner", 0, true⟩, ⟨"m1", "b1", "ua", "member", 0, true⟩,
          ⟨"m2", "b1", "ud", "member", 0, true⟩]⟩
        (some "b1") (some "ud") (some ⟨"ua", "alice@x", 0, none, true⟩)
      = (.membersSection,
         ⟨[⟨"uo", "owner@x", 0, none, true⟩, ⟨"ua", "alice@x", 0, none, true⟩,
           ⟨"uc", "carol@x", 0, none, true⟩, ⟨"ud", "dave@x", 0, none, true⟩],
          [⟨"m0", "b1", "uo", "owner", 0, true⟩, ⟨"m1", "b1", "ua", "member", 0, true⟩]⟩) := by
  refine ⟨rfl, rfl, rfl⟩

/-- Claim C3: the claim says the mark-used step is a conditional write and
that of two racing verifications of the same valid token at most one
succeeds.  Running the embedded race with the schedule read₁, read₂,
write₁, write₂ on a single valid unused link shows both requests finishing
with `ok`; and `MarkMagicLinkAsUsed` applied to an already-used row simply
overwrites `used_at` — the UPDATE carries no `used_at IS NULL` guard. -/
theorem concurrent_verify_both_succeed :
    (runRace 10
        ⟨⟨[⟨"ua", "alice@x", 0, none, true⟩],
          [⟨"ml1", "ua", hashToken "tok", 900, none, 0⟩], []⟩,
         .start "tok", .start "tok"⟩
        [true, false, true, false]).t1
      = .finished (.ok ⟨"ua", "alice@x", 0, none, true⟩) ∧
    (runRace 10
        ⟨⟨[⟨"ua", "alice@x", 0, none, true⟩],
          [⟨"ml1", "ua", hashToken "tok", 900, none, 0⟩], []⟩,
         .start "tok", .start "tok"⟩
        [true, false, true, false]).t2
      = .finished (.ok ⟨"ua", "alice@x", 0, some 10, true⟩) ∧
    SQLiteAuthStore.MarkMagicLinkAsUsed
        ⟨[], [⟨"ml1", "ua", hashToken "tok", 900, some 3, 0⟩], []⟩ "ml1" 99
      = ⟨[], [⟨"ml1", "ua", hashToken "tok", 900, some 99, 0⟩], []⟩ := by
  refine ⟨rfl, rfl, rfl⟩

/-- Claim C4: the claim says `POST /auth/logout` deletes the Session row
keyed by the cookie token's hash and that `resolve_session` afterwards
fails.  The wired handler `auth.Handler.HandleLogout` only clears the
cookie: at a concrete state holding a live session, the state after logout
is unchanged and `GetUserFromSession` with the very same raw cookie token
still resolves the user. -/
theorem logout_leaves_session_resolvable :
    HandleLogout
        ⟨[⟨"ua", "alice@x", 0, none, true⟩], [],
         [⟨"s1", "ua", hashToken "s", 604800, 0⟩]⟩ (some "s")
      = (⟨true, "/auth/login"⟩,
         ⟨[⟨"ua", "alice@x", 0, none, true⟩], [],
          [⟨"s1", "ua", hashToken "s", 604800, 0⟩]⟩) ∧
    AuthService.GetUserFromSession
        (HandleLogout
          ⟨[⟨"ua", "alice@x", 0, none, true⟩], [],
           [⟨"s1", "ua", hashToken "s", 604800, 0⟩]⟩ (some "s")).2
        "s" 100
      = .ok ⟨"ua", "alice@x", 0, none, true⟩ := by
  refine ⟨rfl, rfl⟩

/-- Claim C10: for a session row that exists and is unexpired while its
owning user row is missing, the Session-Service resolver
`AuthService.GetUserFromSession` does return the user-not-found error, but
the claim's universal "always terminates with an error result rather than
crashing" fails in the other cited implementation:
`shared.AuthService.GetCurrentUser` dereferences the nil user pointer with
no nil check and panics on exactly this state. -/
theorem missing_user_session_outcomes :
    AuthService.GetUserFromSession
        ⟨[], [], [⟨"s1", "ghost", hashToken "s", 1000, 0⟩]⟩ "s" 5
      = .error .userNotFound ∧
    GetCurrentUser ⟨[], [], [⟨"s1", "ghost", hashToken "s", 1000, 0⟩]⟩ (some "s") 5
      = .panicked := by
  refine ⟨rfl, rfl⟩

/-- Claim C5, counterexample: the claim orders the checks existence, used,
expiry, so a link both already used (`used_at = 1`) and past expiry
(`expires_at = 2 < now = 5`) would fail with the already-used error.  The
embedded `VerifyMagicLink` checks expiry before used and reports
`expired`, not `alreadyUsed`, on that input. -/
theorem used_expired_link_reports_expired :
    (AuthService.VerifyMagicLink
        ⟨[⟨"ua", "alice@x", 0, none, true⟩],
         [⟨"ml1", "ua", hashToken "t", 2, some 1, 0⟩], []⟩ "t" 5).1
      = .error .expired ∧
    VerifyError.expired ≠ VerifyError.alreadyUsed := by
  exact ⟨rfl, by decide⟩

/-- Claim C6, counterexample: the claim says a magic link verified at
exactly its expiry instant is treated as expired.  At `now = expires_at =
10` the embedded `VerifyMagicLink` (Go: `time.Now().After(expiresAt)`,
strict) does not take the expiry branch and the verification succeeds. -/
theorem verify_at_expiry_instant_succeeds :
    (AuthService.VerifyMagicLink
        ⟨[⟨"ua", "alice@x", 0, none, true⟩],
         [⟨"ml1", "ua", hashToken "t", 10, none, 0⟩], []⟩ "t" 10).1
      = .ok ⟨"ua", "alice@x", 0, none, true⟩ := by
  exact rfl

/-- Claim C5 (amended): `VerifyMagicLink` performs its checks in the order
existence, then expiry, then already-used, then mutate-and-return; in
particular, a magic link that is both already used and past its expiry
fails with the Expired error rather than the AlreadyUsed error. -/
theorem verify_check_order (db : AuthDB) (t : String) (now : Time) :
    (SQLiteAuthStore.GetMagicLinkByTokenHash db (hashToken t) = none →
      (AuthService.VerifyMagicLink db t now).1 = .error .invalidToken) ∧
    (∀ ml, SQLiteAuthStore.GetMagicLinkByTokenHash db (hashToken t) = some ml →
      (now > ml.expiresAt → (AuthService.VerifyMagicLink db t now).1 = .error .expired) ∧
      (¬ now > ml.expiresAt → ml.usedAt.isSome →
        (AuthService.VerifyMagicLink db t now).1 = .error .alreadyUsed)) := by
  refine ⟨fun h => ?_, fun ml h => ⟨fun hexp => ?_, fun hexp hused => ?_⟩⟩
  · simp only [AuthService.VerifyMagicLink, h]
  · simp only [AuthService.VerifyMagicLink, h, hexp, if_true]
  · simp only [AuthService.VerifyMagicLink, h, hexp, if_false, hused, if_true]

/-- Witness for `verify_check_order`: a link that is both used (`used_at =
1`) and expired (`expires_at = 2 < 5`) exists under the hash, and
verification reports the Expired error. -/
theorem verify_check_order_witness :
    SQLiteAuthStore.GetMagicLinkByTokenHash
        ⟨[⟨"ua", "alice@x", 0, none, true⟩],
         [⟨"ml1", "ua", hashToken "t", 2, some 1, 0⟩], []⟩ (hashToken "t")
      = some ⟨"ml1", "ua", hashToken "t", 2, some 1, 0⟩ ∧
    (AuthService.VerifyMagicLink
        ⟨[⟨"ua", "alice@x", 0, none, true⟩],
         [⟨"ml1", "ua", hashToken "t", 2, some 1, 0⟩], []⟩ "t" 5).1
      = .error .expired :=
  ⟨rfl,
   ((verify_check_order
      ⟨[⟨"ua", "alice@x", 0, none, true⟩],
       [⟨"ml1", "ua", hashToken "t", 2, some 1, 0⟩], []⟩ "t" 5).2
     ⟨"ml1", "ua", hashToken "t", 2, some 1, 0⟩ rfl).1 (by decide)⟩

/-- Claim C6 (amended): a magic link verified at or before its expiry
instant is not treated as expired — the valid window includes the boundary
instant (`time.Now().After` is strict), and at the boundary an unused link
whose user exists verifies successfully. -/
theorem expiry_boundary_valid (db : AuthDB) (t : String) (now : Time) (ml : MagicLink)
    (hfind : SQLiteAuthStore.GetMagicLinkByTokenHash db (hashToken t) = some ml)
    (hnow : now ≤ ml.expiresAt) :
    (AuthService.VerifyMagicLink db t now).1 ≠ .error .expired ∧
    (∀ u, ml.usedAt = none → SQLiteAuthStore.GetUserByID db ml.userId = some u →
      (AuthService.VerifyMagicLink db t now).1 = .ok u) := by
  have hexp : ¬ now > ml.expiresAt := not_lt.mpr hnow
  constructor
  · simp only [AuthService.VerifyMagicLink, hfind, hexp, if_false]
    cases hused : ml.usedAt.isSome
    · simp only [Bool.false_eq_true, if_false]
      cases huser : SQLiteAuthStore.GetUserByID
          (SQLiteAuthStore.MarkMagicLinkAsUsed db ml.id now) ml.userId <;> simp
    · simp
  · intro u hused huser
    rw [verify_success_of db t now ml u hfind hexp hused huser]

/-- Witness for `expiry_boundary_valid`: an unused link with `expires_at =
10` verified at exactly `now = 10` succeeds and is not reported expired. -/
theorem expiry_boundary_valid_witness :
    (AuthService.VerifyMagicLink
        ⟨[⟨"ua", "alice@x", 0, none, true⟩],
         [⟨"ml1", "ua", hashToken "tb", 10, none, 0⟩], []⟩ "tb" 10).1
      ≠ .error .expired ∧
    (AuthService.VerifyMagicLink
        ⟨[⟨"ua", "alice@x", 0, none, true⟩],
         [⟨"ml1", "ua", hashToken "tb", 10, none, 0⟩], []⟩ "tb" 10).1
      = .ok ⟨"ua", "alice@x", 0, none, true⟩ :=
  ⟨(expiry_boundary_valid
      ⟨[⟨"ua", "alice@x", 0, none, true⟩],
       [⟨"ml1", "ua", hashToken "tb", 10, none, 0⟩], []⟩ "tb" 10
      ⟨"ml1", "ua", hashToken "tb", 10, none, 0⟩ rfl (by decide)).1,
   (expiry_boundary_valid
      ⟨[⟨"ua", "alice@x", 0, none, true⟩],
       [⟨"ml1", "ua", hashToken "tb", 10, none, 0⟩], []⟩ "tb" 10
      ⟨"ml1", "ua", hashToken "tb", 10, none, 0⟩ rfl (by decide)).2
     ⟨"ua", "alice@x", 0, none, true⟩ rfl rfl⟩

/-- Claim C9: every Session row written by `AuthService.CreateSession`
carries `hashToken` of the raw token in its `session_token` field — and
the stored value is never the raw token itself. -/
theorem session_stores_hashed_token (db : AuthDB)
    (userID freshSessionID token : String) (now : Time) :
    AuthService.CreateSession db userID freshSessionID token now
      = (token,
         { db with
           sessions := db.sessions ++
             [{ id := freshSessionID, userId := userID,
                sessionToken := hashToken token,
                expiresAt := now + 7 * 24 * 60 * 60, createdAt := now }] }) ∧
    hashToken token ≠ token := by
  refine ⟨rfl, fun h => ?_⟩
  have hlen := congrArg String.length h
  have h7 : ("sha256:" : String).length = 7 := rfl
  simp only [hashToken, String.length_append, h7] at hlen
  omega

/-- Claim C7: after `GenerateMagicLink(email)` returns a raw token —
creating the user first when no user with that email exists — one
immediate `VerifyMagicLink` with that token within the 15-minute window
succeeds and returns exactly the user whose email is that address.
Hypotheses record the PRIMARY KEY on `users.id`, the freshness of the
random token's hash and of the generated user UUID, and the call being
inside the expiry window. -/
theorem magic_link_roundtrip (db : AuthDB) (email freshUserID freshLinkID token : String)
    (now now2 : Time)
    (hnodup : (db.users.map User.id).Nodup)
    (hfreshTok : ∀ ml ∈ db.magicLinks, ml.tokenHash ≠ hashToken token)
    (hfreshUid : ∀ u ∈ db.users, u.id ≠ freshUserID)
    (hwin : now2 ≤ now + 15 * 60) :
    ∃ u db2,
      AuthService.VerifyMagicLink
          (AuthService.GenerateMagicLink db email freshUserID freshLinkID token now).2
          (AuthService.GenerateMagicLink db email freshUserID freshLinkID token now).1 now2
        = (.ok u, db2) ∧ u.email = email := by
  have hexp : ¬ now2 > now + 15 * 60 := not_lt.mpr hwin
  have holdFail : ∀ y ∈ db.magicLinks, (y.tokenHash == hashToken token) = false :=
    fun y hy => beq_eq_false_iff_ne.mpr (hfreshTok y hy)
  cases hu0 : SQLiteAuthStore.GetUserByEmail db email with
  | some u0 =>
    have hmem0 : u0 ∈ db.users := List.mem_of_find?_eq_some hu0
    have hemail0 : u0.email = email := by
      have := List.find?_some hu0
      simpa using this
    have hGen : AuthService.GenerateMagicLink db email freshUserID freshLinkID token now
        = (token,
           ⟨db.users, db.magicLinks ++
              [⟨freshLinkID, u0.id, hashToken token, now + 15 * 60, none, now⟩],
            db.sessions⟩) := by
      simp only [AuthService.GenerateMagicLink, hu0, SQLiteAuthStore.CreateMagicLink]
    rw [hGen]
    have hfind : SQLiteAuthStore.GetMagicLinkByTokenHash
        ⟨db.users, db.magicLinks ++
            [⟨freshLinkID, u0.id, hashToken token, now + 15 * 60, none, now⟩],
          db.sessions⟩ (hashToken token)
        = some ⟨freshLinkID, u0.id, hashToken token, now + 15 * 60, none, now⟩ := by
      unfold SQLiteAuthStore.GetMagicLinkByTokenHash
      rw [find?_append_singleton _ _ _ holdFail]
      simp
    have huser : SQLiteAuthStore.GetUserByID
        ⟨db.users, db.magicLinks ++
            [⟨freshLinkID, u0.id, hashToken token, now + 15 * 60, none, now⟩],
          db.sessions⟩ u0.id = some u0 :=
      find?_by_id_of_nodup db.users u0 hmem0 hnodup
    exact ⟨u0, _, verify_success_of _ token now2 _ u0 hfind hexp rfl huser, hemail0⟩
  | none =>
    have hGen : AuthService.GenerateMagicLink db email freshUserID freshLinkID token now
        = (token,
           ⟨db.users ++ [⟨freshUserID, email, now, none, true⟩],
            db.magicLinks ++
              [⟨freshLinkID, freshUserID, hashToken token, now + 15 * 60, none, now⟩],
            db.sessions⟩) := by
      simp only [AuthService.GenerateMagicLink, hu0, SQLiteAuthStore.CreateUser,
        SQLiteAuthStore.CreateMagicLink]
    rw [hGen]
    have hfind : SQLiteAuthStore.GetMagicLinkByTokenHash
        ⟨db.users ++ [⟨freshUserID, email, now, none, true⟩],
         db.magicLinks ++
            [⟨freshLinkID, freshUserID, hashToken token, now + 15 * 60, none, now⟩],
         db.sessions⟩ (hashToken token)
        = some ⟨freshLinkID, freshUserID, hashToken token, now + 15 * 60, none, now⟩ := by
      unfold SQLiteAuthStore.GetMagicLinkByTokenHash
      rw [find?_append_singleton _ _ _ holdFail]
      simp
    have huser : SQLiteAuthStore.GetUserByID
        ⟨db.users ++ [⟨freshUserID, email, now, none, true⟩],
         db.magicLinks ++
            [⟨freshLinkID, freshUserID, hashToken token, now + 15 * 60, none, now⟩],
         db.sessions⟩ freshUserID = some ⟨freshUserID, email, now, none, true⟩ := by
      unfold SQLiteAuthStore.GetUserByID
      rw [find?_append_singleton _ _ _
        (fun y hy => beq_eq_false_iff_ne.mpr (hfreshUid y hy))]
      simp
    exact ⟨⟨freshUserID, email, now, none, true⟩, _,
      verify_success_of _ token now2 _ _ hfind hexp rfl huser, rfl⟩

/-- Witness for `magic_link_roundtrip`: on an empty store, requesting a
magic link for `new@example.com` auto-creates the user and the immediate
verification of the returned token at `now2 = 890 ≤ 900` succeeds with a
user carrying that email. -/
theorem magic_link_roundtrip_witness :
    ∃ u db2,
      AuthService.VerifyMagicLink
          (AuthService.GenerateMagicLink ⟨[], [], []⟩ "new@example.com" "u1" "ml1" "tok" 0).2
          (AuthService.GenerateMagicLink ⟨[], [], []⟩ "new@example.com" "u1" "ml1" "tok" 0).1 890
        = (.ok u, db2) ∧ u.email = "new@example.com" :=
  magic_link_roundtrip ⟨[], [], []⟩ "new@example.com" "u1" "ml1" "tok" 0 890
    (by decide) (by decide) (by decide) (by decide)

/-- Filtering a list down to the elements whose `sessionToken` differs from
`h` (the `DELETE ... WHERE session_token = ?` complement) leaves nothing
for a subsequent lookup by `h` to find. -/
theorem find?_filter_bne (l : List Session) (h : String) :
    (l.filter (fun s => s.sessionToken != h)).find? (fun s => s.sessionToken == h) = none := by
  refine List.find?_eq_none.mpr fun s hs => ?_
  have hne := (List.mem_filter.mp hs).2
  simp only [bne_iff_ne, ne_eq] at hne
  simp [hne]

/-- Claim C8: a session minted by `AuthService.CreateSession` for `userID`
resolves through `GetUserFromSession` with the returned raw token, before
the 7-day expiry, to the user with that id; and after the session is
invalidated (hash-keyed delete), resolution with the same raw token fails
with the not-found error at every instant.  Hypotheses record the
freshness of the random session token's hash (the `session_token` UNIQUE
column) and the existence of the user row. -/
theorem session_roundtrip (db : AuthDB) (userID freshSessionID token : String)
    (now now2 : Time) (usr : User)
    (hfresh : ∀ s ∈ db.sessions, s.sessionToken ≠ hashToken token)
    (huser : SQLiteAuthStore.GetUserByID db userID = some usr)
    (hwin : now2 ≤ now + 7 * 24 * 60 * 60) :
    AuthService.GetUserFromSession
        (AuthService.CreateSession db userID freshSessionID token now).2
        (AuthService.CreateSession db userID freshSessionID token now).1 now2
      = .ok usr ∧
    usr.id = userID ∧
    ∀ now3 : Time,
      AuthService.GetUserFromSession
          (AuthService.InvalidateSession
            (AuthService.CreateSession db userID freshSessionID token now).2
            (AuthService.CreateSession db userID freshSessionID token now).1)
          (AuthService.CreateSession db userID freshSessionID token now).1 now3
        = .error .notFound := by
  have hid : usr.id = userID := by
    have := List.find?_some huser
    simpa using this
  have hCS : AuthService.CreateSession db userID freshSessionID token now
      = (token,
         ⟨db.users, db.magicLinks,
          db.sessions ++
            [⟨freshSessionID, userID, hashToken token, now + 7 * 24 * 60 * 60, now⟩]⟩) := rfl
  rw [hCS]
  have hfindS : SQLiteAuthStore.GetSessionByToken
      ⟨db.users, db.magicLinks,
       db.sessions ++
          [⟨freshSessionID, userID, hashToken token, now + 7 * 24 * 60 * 60, now⟩]⟩
      (hashToken token)
      = some ⟨freshSessionID, userID, hashToken token, now + 7 * 24 * 60 * 60, now⟩ := by
    unfold SQLiteAuthStore.GetSessionByToken
    rw [find?_append_singleton _ _ _
      (fun y hy => beq_eq_false_iff_ne.mpr (hfresh y hy))]
    simp
  refine ⟨?_, hid, fun now3 => ?_⟩
  · have hexp : ¬ now2 > now + 7 * 24 * 60 * 60 := not_lt.mpr hwin
    simp only [AuthService.GetUserFromSession, hfindS, hexp, if_false]
    show (match SQLiteAuthStore.GetUserByID db userID with
          | none => Except.error SessionError.userNotFound
          | some user => Except.ok user) = Except.ok usr
    rw [huser]
  · simp only [AuthService.InvalidateSession, SQLiteAuthStore.DeleteSession,
      AuthService.GetUserFromSession, SQLiteAuthStore.GetSessionByToken]
    rw [show ∀ l : List Session, (l.filter fun s => s.sessionToken != hashToken token)
          = l.filter (fun s => s.sessionToken != hashToken token) from fun _ => rfl]
    rw [find?_filter_bne]

/-- Witness for `session_roundtrip`: with one user `ua` and no prior
sessions, the freshly created session resolves to that user at `now2 =
600000 ≤ 604800`, and after invalidation resolution fails. -/
theorem session_roundtrip_witness :
    AuthService.GetUserFromSession
        (AuthService.CreateSession
          ⟨[⟨"ua", "alice@x", 0, none, true⟩], [], []⟩ "ua" "s1" "stok" 0).2
        (AuthService.CreateSession
          ⟨[⟨"ua", "alice@x", 0, none, true⟩], [], []⟩ "ua" "s1" "stok" 0).1 600000
      = .ok ⟨"ua", "alice@x", 0, none, true⟩ ∧
    AuthService.GetUserFromSession
        (AuthService.InvalidateSession
          (AuthService.CreateSession
            ⟨[⟨"ua", "alice@x", 0, none, true⟩], [], []⟩ "ua" "s1" "stok" 0).2
          (AuthService.CreateSession
            ⟨[⟨"ua", "alice@x", 0, none, true⟩], [], []⟩ "ua" "s1" "stok" 0).1)
        (AuthService.CreateSession
          ⟨[⟨"ua", "alice@x", 0, none, true⟩], [], []⟩ "ua" "s1" "stok" 0).1 999999
      = .error .notFound :=
  ⟨(session_roundtrip ⟨[⟨"ua", "alice@x", 0, none, true⟩], [], []⟩ "ua" "s1" "stok" 0 600000
      ⟨"ua", "alice@x", 0, none, true⟩ (by decide) rfl (by decide)).1,
   (session_roundtrip ⟨[⟨"ua", "alice@x", 0, none, true⟩], [], []⟩ "ua" "s1" "stok" 0 600000
      ⟨"ua", "alice@x", 0, none, true⟩ (by decide) rfl (by decide)).2.2 999999⟩

/-- Marking any magic link used preserves `hashConsumed`: the UPDATE either
leaves a row unchanged or sets its `used_at` to a non-null value. -/
theorem hashConsumed_mark (db : AuthDB) (h magicLinkID : String) (now : Time)
    (hc : hashConsumed db h) :
    hashConsumed (SQLiteAuthStore.MarkMagicLinkAsUsed db magicLinkID now) h := by
  intro ml hml hhash
  simp only [SQLiteAuthStore.MarkMagicLinkAsUsed, List.mem_map] at hml
  obtain ⟨ml0, hml0, heq⟩ := hml
  by_cases hid0 : (ml0.id == magicLinkID) = true
  · rw [if_pos hid0] at heq; subst heq; rfl
  · rw [if_neg hid0] at heq; subst heq; exact hc ml0 hml0 hhash

/-- The final state of `VerifyMagicLink` has either the unchanged
`magic_links` table or the table with one id's rows marked used. -/
theorem verify_magicLinks_cases (db : AuthDB) (tok : String) (now : Time) :
    (AuthService.VerifyMagicLink db tok now).2.magicLinks = db.magicLinks ∨
    ∃ i, (AuthService.VerifyMagicLink db tok now).2.magicLinks
        = (SQLiteAuthStore.MarkMagicLinkAsUsed db i now).magicLinks := by
  simp only [AuthService.VerifyMagicLink]
  split
  · left; rfl
  · split
    · left; rfl
    · split
      · left; rfl
      · split
        · right; exact ⟨_, rfl⟩
        · right; exact ⟨_, rfl⟩

/-- `hashConsumed` is preserved by every operation that does not insert a
fresh magic-link row with the protected hash. -/
theorem hashConsumed_applyOp (db : AuthDB) (h : String) (op : AuthOp)
    (hc : hashConsumed db h) (havoid : opAvoidsHash op h = true) :
    hashConsumed (applyOp db op) h := by
  cases op with
  | createUser email uid now => exact fun ml hml => hc ml hml
  | updateUserLastLogin uid now => exact fun ml hml => hc ml hml
  | createMagicLink uid th exp mlId now =>
    intro ml hml hhash
    simp only [applyOp, SQLiteAuthStore.CreateMagicLink, List.mem_append,
      List.mem_singleton] at hml
    rcases hml with hml | rfl
    · exact hc ml hml hhash
    · simp only [opAvoidsHash, bne_iff_ne, ne_eq] at havoid
      exact absurd hhash havoid
  | markMagicLinkAsUsed mlId now => exact hashConsumed_mark db h mlId now hc
  | cleanupExpiredMagicLinks now =>
    intro ml hml hhash
    exact hc ml (List.mem_of_mem_filter hml) hhash
  | createSessionRow uid tok exp sid now => exact fun ml hml => hc ml hml
  | deleteSession tok => exact fun ml hml => hc ml hml
  | cleanupExpiredSessions now => exact fun ml hml => hc ml hml
  | generateMagicLink email uid mlId tok now =>
    intro ml hml hhash
    simp only [opAvoidsHash, bne_iff_ne, ne_eq] at havoid
    have hml' : ml ∈ db.magicLinks ∨ ml.tokenHash = hashToken tok := by
      cases hu : SQLiteAuthStore.GetUserByEmail db email with
      | some u0 =>
        simp only [applyOp, AuthService.GenerateMagicLink, hu,
          SQLiteAuthStore.CreateMagicLink, List.mem_append, List.mem_singleton] at hml
        rcases hml with hml | rfl
        · exact Or.inl hml
        · exact Or.inr rfl
      | none =>
        simp only [applyOp, AuthService.GenerateMagicLink, hu, SQLiteAuthStore.CreateUser,
          SQLiteAuthStore.CreateMagicLink, List.mem_append, List.mem_singleton] at hml
        rcases hml with hml | rfl
        · exact Or.inl hml
        · exact Or.inr rfl
    rcases hml' with hml' | hml'
    · exact hc ml hml' hhash
    · exact absurd (hml'.symm.trans hhash) havoid
  | verifyMagicLink tok now =>
    intro ml hml hhash
    rcases verify_magicLinks_cases db tok now with hcase | ⟨i, hcase⟩
    · rw [show applyOp db (.verifyMagicLink tok now)
          = (AuthService.VerifyMagicLink db tok now).2 from rfl, hcase] at hml
      exact hc ml hml hhash
    · rw [show applyOp db (.verifyMagicLink tok now)
          = (AuthService.VerifyMagicLink db tok now).2 from rfl, hcase] at hml
      exact hashConsumed_mark db h i now hc ml hml hhash
  | createSession uid sid tok now => exact fun ml hml => hc ml hml
  | invalidateSession tok => exact fun ml hml => hc ml hml

/-- `hashConsumed` is preserved by any sequence of hash-avoiding operations. -/
theorem hashConsumed_applyOps (ops : List AuthOp) (db : AuthDB) (h : String)
    (hc : hashConsumed db h) (havoid : ∀ op ∈ ops, opAvoidsHash op h = true) :
    hashConsumed (applyOps db ops) h := by
  induction ops generalizing db with
  | nil => exact hc
  | cons op ops ih =>
    exact ih (applyOp db op)
      (hashConsumed_applyOp db h op hc (havoid op (List.mem_cons_self op ops)))
      (fun o ho => havoid o (List.mem_cons_of_mem op ho))

/-- Once every row under the token's hash is used, verification with that
token can never return `ok` (the found row, if any, trips the expiry or
the already-used check). -/
theorem verify_fails_of_hashConsumed (db : AuthDB) (t : String) (now : Time)
    (hc : hashConsumed db (hashToken t)) (u : User) :
    (AuthService.VerifyMagicLink db t now).1 ≠ .ok u := by
  cases hf : SQLiteAuthStore.GetMagicLinkByTokenHash db (hashToken t) with
  | none => simp [AuthService.VerifyMagicLink, hf]
  | some ml =>
    have hmem : ml ∈ db.magicLinks := List.mem_of_find?_eq_some hf
    have hhash : ml.tokenHash = hashToken t := by simpa using List.find?_some hf
    have hused : ml.usedAt.isSome = true := hc ml hmem hhash
    by_cases h1 : now > ml.expiresAt
    · simp [AuthService.VerifyMagicLink, hf, h1]
    · simp [AuthService.VerifyMagicLink, hf, h1, hused]

/-- A successful verification leaves every `magic_links` row under the
token's hash marked used (rows share ids only when they share hashes, per
the `hid` PRIMARY KEY hypothesis). -/
theorem verify_success_consumes (db : AuthDB) (t : String) (now : Time) (u : User)
    (db1 : AuthDB)
    (hid : ∀ m1 ∈ db.magicLinks, ∀ m2 ∈ db.magicLinks,
      m1.tokenHash = m2.tokenHash → m1.id = m2.id)
    (hsucc : AuthService.VerifyMagicLink db t now = (.ok u, db1)) :
    hashConsumed db1 (hashToken t) := by
  simp only [AuthService.VerifyMagicLink] at hsucc
  split at hsucc
  · exact absurd (congrArg Prod.fst hsucc) (by simp)
  · next ml hf =>
    have hmem : ml ∈ db.magicLinks := List.mem_of_find?_eq_some hf
    have hhash : ml.tokenHash = hashToken t := by simpa using List.find?_some hf
    split at hsucc
    · exact absurd (congrArg Prod.fst hsucc) (by simp)
    · split at hsucc
      · exact absurd (congrArg Prod.fst hsucc) (by simp)
      · split at hsucc
        · exact absurd (congrArg Prod.fst hsucc) (by simp)
        · next usr husr =>
          have hdb1 : db1 = SQLiteAuthStore.UpdateUserLastLogin
              (SQLiteAuthStore.MarkMagicLinkAsUsed db ml.id now) usr.id now :=
            (congrArg Prod.snd hsucc).symm
          subst hdb1
          intro ml' hml' hhash'
          simp only [SQLiteAuthStore.UpdateUserLastLogin,
            SQLiteAuthStore.MarkMagicLinkAsUsed, List.mem_map] at hml'
          obtain ⟨ml0, hml0, heq⟩ := hml'
          by_cases hid0 : (ml0.id == ml.id) = true
          · rw [if_pos hid0] at heq; subst heq; rfl
          · rw [if_neg hid0] at heq; subst heq
            have : ml0.id = ml.id := hid ml0 hml0 ml hmem (hhash'.trans hhash.symm)
            exact absurd (beq_iff_eq.mpr this) hid0

/-- Claim C2: at most one verification of a magic link's raw token ever
succeeds.  A successful `VerifyMagicLink` leaves every row under the
token's hash with non-null `used_at`; no operation of the authentication
core (that does not insert a fresh row under the very same hash, which
256-bit random tokens exclude) ever resets `used_at` to null; and after
any such sequence of operations every further verification with the same
raw token fails.  The `hid` hypothesis records the `magic_links.id`
PRIMARY KEY discipline: rows with equal hashes do not carry distinct ids. -/
theorem magic_link_single_use (db : AuthDB) (t : String) (now : Time) (u : User)
    (db1 : AuthDB)
    (hid : ∀ m1 ∈ db.magicLinks, ∀ m2 ∈ db.magicLinks,
      m1.tokenHash = m2.tokenHash → m1.id = m2.id)
    (hsucc : AuthService.VerifyMagicLink db t now = (.ok u, db1)) :
    hashConsumed db1 (hashToken t) ∧
    ∀ ops : List AuthOp, (∀ op ∈ ops, opAvoidsHash op (hashToken t) = true) →
      hashConsumed (applyOps db1 ops) (hashToken t) ∧
      ∀ (now2 : Time) (u2 : User),
        (AuthService.VerifyMagicLink (applyOps db1 ops) t now2).1 ≠ .ok u2 := by
  have hc1 := verify_success_consumes db t now u db1 hid hsucc
  refine ⟨hc1, fun ops havoid => ?_⟩
  have hc2 := hashConsumed_applyOps ops db1 (hashToken t) hc1 havoid
  exact ⟨hc2, fun now2 u2 => verify_fails_of_hashConsumed _ t now2 hc2 u2⟩

/-- Witness for `magic_link_single_use`: verifying the single unused link at
`now = 5` succeeds; afterwards (also after an intervening cleanup
operation) the link is used and a second verification at `now2 = 6` cannot
return `ok`. -/
theorem magic_link_single_use_witness :
    hashConsumed
      ⟨[⟨"ua", "alice@x", 0, some 5, true⟩],
       [⟨"ml1", "ua", hashToken "t", 900, some 5, 0⟩], []⟩ (hashToken "t") ∧
    hashConsumed
      (applyOps
        ⟨[⟨"ua", "alice@x", 0, some 5, true⟩],
         [⟨"ml1", "ua", hashToken "t", 900, some 5, 0⟩], []⟩
        [.cleanupExpiredSessions 0]) (hashToken "t") ∧
    (AuthService.VerifyMagicLink
        (applyOps
          ⟨[⟨"ua", "alice@x", 0, some 5, true⟩],
           [⟨"ml1", "ua", hashToken "t", 900, some 5, 0⟩], []⟩
          [.cleanupExpiredSessions 0]) "t" 6).1
      ≠ .ok ⟨"ua", "alice@x", 0, none, true⟩ :=
  have h := magic_link_single_use
    ⟨[⟨"ua", "alice@x", 0, none, true⟩],
     [⟨"ml1", "ua", hashToken "t", 900, none, 0⟩], []⟩ "t" 5
    ⟨"ua", "alice@x", 0, none, true⟩
    ⟨[⟨"ua", "alice@x", 0, some 5, true⟩],
     [⟨"ml1", "ua", hashToken "t", 900, some 5, 0⟩], []⟩
    (by decide) (by decide)
  ⟨h.1, (h.2 [.cleanupExpiredSessions 0] (by decide)).1,
   (h.2 [.cleanupExpiredSessions 0] (by decide)).2 6 ⟨"ua", "alice@x", 0, none, true⟩⟩

end SetlistManager
